import Mathlib

/-!
Verification development for the cadracks-ide repository.

The Python sources are shallowly embedded:
* string helpers model the CPython primitives the code relies on
  (str.rfind, str.strip, str.lower, os.path.splitext, the "in" substring test);
* cadracks_ide/utils.py        : get_file_extension;
* cadracks_ide/model.py        : the Model record and its two setters;
* cadracks_ide/three_d.py      : ThreeDPanel.on_selected_change as a function
  from an environment of external oracles (file system, importers, Python
  loader) to a trace of observable effects plus an escaping-exception field,
  mirroring the try/except/finally structure of the handler, and
  display_extra_info's bounding-box readout;
* cadracks_ide/cadracks_ide_ui.py : get_config and the configuration-reading
  prologue of CadracksIdeFrame.__init__ with its TypeError/KeyError fallback.
-/

/-! ## String helpers (CPython primitives used by the sources) -/

/-- Index of the last occurrence of a character, i.e. CPython str.rfind
restricted to a single-character needle (none plays the role of -1). -/
def rfindIdxO (l : List Char) (c : Char) : Option Nat :=
  match l with
  | [] => none
  | x :: xs =>
    match rfindIdxO xs c with
    | some i => some (i + 1)
    | none => if x = c then some 0 else none

/-- CPython str.strip: remove leading and trailing whitespace. -/
def stripChars (l : List Char) : List Char :=
  ((l.dropWhile Char.isWhitespace).reverse.dropWhile Char.isWhitespace).reverse

/-- CPython str.lower, character by character. -/
def lowerStr (s : String) : String :=
  String.mk (s.data.map Char.toLower)

/-- Does the pattern occur at the head of the text? -/
def headMatch : List Char → List Char → Bool
  | [], _ => true
  | _ :: _, [] => false
  | p :: ps, c :: cs => p = c && headMatch ps cs

/-- Does the pattern occur anywhere in the text? -/
def occursIn (pat : List Char) : List Char → Bool
  | [] => pat.isEmpty
  | c :: cs => headMatch pat (c :: cs) || occursIn pat cs

/-- CPython "pat in s" substring test. -/
def containsSeq (pat s : String) : Bool :=
  occursIn pat.data s.data

/-- os.path.splitext (posixpath): split off the extension at the last period
of the basename, ignoring leading periods of the basename. -/
def splitext (p : String) : String × String :=
  let l := p.data
  match rfindIdxO l '.' with
  | none => (p, "")
  | some di =>
    let fi : Nat :=
      match rfindIdxO l '/' with
      | none => 0
      | some si => si + 1
    if fi ≤ di then
      -- the while-loop of posixpath: leading periods of the basename do
      -- not open an extension
      if ((l.drop fi).take (di - fi)).all (fun c => c = '.') then (p, "")
      else (String.mk (l.take di), String.mk (l.drop di))
    else (p, "")

/-! ## utils.py -/

/-- utils.get_file_extension, with os.path.isdir supplied as an oracle. -/
def get_file_extension (isDir : String → Bool) (filename : String) : String :=
  if !(isDir filename) then
    match rfindIdxO filename.data '.' with
    | some index => lowerStr (String.mk (stripChars (filename.data.drop index)))
    | none => ""
  else "directory"

/-- Rendering of the specification's words for claim C10: the substring of the
filename starting at the last period, built from the reversed character list. -/
def specLastPeriodSuffix (l : List Char) : List Char :=
  '.' :: (l.reverse.takeWhile (fun c => c != '.')).reverse

/-! ## model.py -/

/-- Side effects of the Model setters that are visible outside the record. -/
inductive MEffect where
  | logDebug
  | sysPathAppend (p : String)
  | notify (topic : String)
  deriving DecidableEq

/-- model.Model: the observable record with its three string members. -/
structure Model where
  root_folder : String
  selected : String
  code : String
  deriving DecidableEq

/-- Model.set_root_folder. -/
def set_root_folder (m : Model) (root_folder : String) : Model × List MEffect :=
  ({ m with root_folder := root_folder },
   [MEffect.logDebug, MEffect.sysPathAppend root_folder, MEffect.logDebug,
    MEffect.notify "root_folder_changed"])

/-- Model.set_selected. -/
def set_selected (m : Model) (selected : String) : Model × List MEffect :=
  ({ m with selected := selected },
   [MEffect.logDebug, MEffect.logDebug, MEffect.notify "selected_changed"])

/-! ## three_d.py: display_extra_info bounding-box readout -/

/-- The six values returned by Bnd_Box.Get for a selected shape. -/
structure BndBox where
  xmin : ℚ
  ymin : ℚ
  zmin : ℚ
  xmax : ℚ
  ymax : ℚ
  zmax : ℚ
  deriving DecidableEq

/-- The numbers printed by the info message box. -/
structure BoxReadout where
  dx : ℚ
  dy : ℚ
  dz : ℚ
  cx : ℚ
  cy : ℚ
  cz : ℚ
  deriving DecidableEq

/-- The bounding-box arithmetic of display_extra_info. -/
def display_extra_info (b : BndBox) : BoxReadout :=
  let dx := b.xmax - b.xmin
  let dy := b.ymax - b.ymin
  let dz := b.zmax - b.zmin
  ⟨dx, dy, dz, b.xmin + dx / 2, b.ymin + dy / 2, b.zmin + dz / 2⟩

/-! ## three_d.py: the selection-change handler -/

/-- Observable effects emitted by ThreeDPanel.on_selected_change. -/
inductive Effect where
  | logDebug
  | logInfo
  | logWarning
  | logError
  | logException
  | eraseAll
  | busyCreate
  | busyDestroy
  | execPython
  | stepImport
  | igesImport
  | stlImport
  | jsonLoad
  | libraryLoad
  | stepzipLoad
  | displayShape
  | displayPart
  | displayAssembly
  | displayAssemblies
  | displayMessage
  | fitAll
  | layout
  deriving DecidableEq

/-- A run of a code block: the effects it emitted and the exception, if any,
escaping it. -/
structure Run where
  events : List Effect
  exc : Option String
  deriving DecidableEq

/-- Sequencing of two blocks: the second runs only when the first one
did not raise. -/
def Run.seq (a b : Run) : Run :=
  match a.exc with
  | some e => ⟨a.events, some e⟩
  | none => ⟨a.events ++ b.events, b.exc⟩

/-- The busy_info / try / except-log / finally-del pattern shared by
every importing branch of the handler: any exception of the body is
consumed. -/
def busyTryLog (body : Run) : Run :=
  ⟨Effect.busyCreate ::
     (body.events ++
       (match body.exc with
        | some _ => [Effect.logError]
        | none => []) ++ [Effect.busyDestroy]), none⟩

/-- The attributes and behaviors of a module loaded by imp.load_source. -/
structure PyModule where
  hasShape : Bool
  hasShapes : Bool
  hasAnchors : Bool
  hasProperties : Bool
  hasAssembly : Bool
  hasAssemblies : Bool
  shapesCount : Nat
  assemblyKeyErr : Bool
  assembliesKeyErr : Bool
  deriving DecidableEq

/-- External world of the handler: file system predicates, file contents and
the outcome of every importer / loader call. -/
structure Env where
  isDir : String → Bool
  read : String → String
  isValidPython : String → Bool
  loadSource : String → Except String PyModule
  stepShapes : String → Except String Nat
  igesShapes : String → Except String Nat
  stlLoad : String → Except String Unit
  jsonKeys : String → Except String (List String)
  libraryPart : String → String → Except String Unit
  stepzipPart : String → Except String Unit
  anchorScript : String → Except String Unit

/-- The attribute dispatch on a successfully loaded module
(three_d.py lines 161-198). -/
def pyModuleDisplay (env : Env) (sel : String) (m : PyModule) : Run :=
  if m.hasShapes then
    ⟨Effect.logInfo ::
       (List.range m.shapesCount).map (fun _ => Effect.displayShape), none⟩
  else if m.hasAssembly then
    ⟨Effect.logInfo ::
       (if m.assemblyKeyErr then
          [Effect.displayAssembly, Effect.eraseAll, Effect.logException]
        else [Effect.displayAssembly, Effect.fitAll]), none⟩
  else if m.hasAssemblies then
    ⟨Effect.logInfo ::
       (if m.assembliesKeyErr then
          [Effect.displayAssemblies, Effect.eraseAll, Effect.logException]
        else [Effect.displayAssemblies, Effect.fitAll]), none⟩
  else if m.hasShape then
    if m.hasAnchors = false then
      ⟨[Effect.logInfo, Effect.displayShape, Effect.fitAll], none⟩
    else
      match env.anchorScript sel with
      | Except.error e => ⟨[Effect.logInfo], some e⟩
      | Except.ok _ => ⟨[Effect.logInfo, Effect.displayPart, Effect.fitAll], none⟩
  else ⟨[Effect.eraseAll, Effect.logWarning], none⟩

/-- The body of the .py try block: imp.load_source, then erase_all, then the
attribute dispatch. -/
def pyTryBody (env : Env) (sel : String) : Run :=
  match env.loadSource sel with
  | Except.error e => ⟨[Effect.execPython], some e⟩
  | Except.ok m =>
    Run.seq ⟨[Effect.execPython, Effect.eraseAll], none⟩ (pyModuleDisplay env sel m)

/-- The .py branch of the handler (three_d.py lines 143-205). -/
def pyBranch (env : Env) (sel : String) : Run :=
  if env.isValidPython (env.read sel) then busyTryLog (pyTryBody env sel)
  else ⟨[Effect.logWarning, Effect.eraseAll], none⟩

/-- The body of the .step/.stp try block. -/
def stepTryBody (env : Env) (sel : String) : Run :=
  match env.stepShapes sel with
  | Except.error e => ⟨[Effect.stepImport], some e⟩
  | Except.ok n =>
    ⟨Effect.stepImport :: Effect.logInfo ::
       (List.range n).flatMap (fun _ => [Effect.displayShape, Effect.fitAll]), none⟩

/-- The .step/.stp branch (three_d.py lines 207-222). -/
def stepBranch (env : Env) (sel : String) : Run :=
  Run.seq ⟨[Effect.eraseAll], none⟩ (busyTryLog (stepTryBody env sel))

/-- The body of the .iges/.igs try block. -/
def igesTryBody (env : Env) (sel : String) : Run :=
  match env.igesShapes sel with
  | Except.error e => ⟨[Effect.igesImport], some e⟩
  | Except.ok n =>
    ⟨Effect.igesImport :: Effect.logInfo ::
       (List.range n).flatMap (fun _ => [Effect.displayShape, Effect.fitAll]), none⟩

/-- The .iges/.igs branch (three_d.py lines 224-239). -/
def igesBranch (env : Env) (sel : String) : Run :=
  Run.seq ⟨[Effect.eraseAll], none⟩ (busyTryLog (igesTryBody env sel))

/-- The body of the .stl try block. -/
def stlTryBody (env : Env) (sel : String) : Run :=
  match env.stlLoad sel with
  | Except.error e => ⟨[Effect.stlImport], some e⟩
  | Except.ok _ => ⟨[Effect.stlImport, Effect.displayShape, Effect.fitAll], none⟩

/-- The .stl branch (three_d.py lines 241-254). -/
def stlBranch (env : Env) (sel : String) : Run :=
  Run.seq ⟨[Effect.eraseAll], none⟩ (busyTryLog (stlTryBody env sel))

/-- First loop of the .json try block: a library part and its bounding box
are built for every key of the "data" object. -/
def jsonLibLoop1 (env : Env) (sel : String) : List String → Run
  | [] => ⟨[], none⟩
  | k :: ks =>
    match env.libraryPart sel k with
    | Except.error e => ⟨[Effect.libraryLoad], some e⟩
    | Except.ok _ => Run.seq ⟨[Effect.libraryLoad], none⟩ (jsonLibLoop1 env sel ks)

/-- Second loop of the .json try block: every library part is rebuilt,
translated and displayed with its key as a message. -/
def jsonLibLoop2 (env : Env) (sel : String) : List String → Run
  | [] => ⟨[], none⟩
  | k :: ks =>
    match env.libraryPart sel k with
    | Except.error e => ⟨[Effect.libraryLoad], some e⟩
    | Except.ok _ =>
      Run.seq
        ⟨[Effect.libraryLoad, Effect.displayPart, Effect.displayMessage,
          Effect.fitAll], none⟩
        (jsonLibLoop2 env sel ks)

/-- The body of the .json try block: json.load, then the two loops. -/
def jsonTryBody (env : Env) (sel : String) : Run :=
  match env.jsonKeys sel with
  | Except.error e => ⟨[Effect.jsonLoad], some e⟩
  | Except.ok keys =>
    Run.seq ⟨[Effect.jsonLoad], none⟩
      (Run.seq (jsonLibLoop1 env sel keys) (jsonLibLoop2 env sel keys))

/-- The .json branch (three_d.py lines 256-323): the import runs only when
the raw text contains the substring "metadata". -/
def jsonBranch (env : Env) (sel : String) : Run :=
  Run.seq ⟨[Effect.eraseAll], none⟩
    (if containsSeq "metadata" (env.read sel) then busyTryLog (jsonTryBody env sel)
     else ⟨[], none⟩)

/-- The body of the .stepzip try block. -/
def stepzipTryBody (env : Env) (sel : String) : Run :=
  match env.stepzipPart sel with
  | Except.error e => ⟨[Effect.stepzipLoad], some e⟩
  | Except.ok _ => ⟨[Effect.stepzipLoad, Effect.displayPart, Effect.fitAll], none⟩

/-- The .stepzip branch (three_d.py lines 324-334). -/
def stepzipBranch (env : Env) (sel : String) : Run :=
  Run.seq ⟨[Effect.eraseAll], none⟩ (busyTryLog (stepzipTryBody env sel))

/-- The extension dispatch chain of the handler (the elif chain of
three_d.py lines 143-338). -/
def extDispatch (env : Env) (sel : String) (ext : String) : Run :=
  if ext = ".py" then pyBranch env sel
  else if ext = ".step" ∨ ext = ".stp" then stepBranch env sel
  else if ext = ".iges" ∨ ext = ".igs" then igesBranch env sel
  else if ext = ".stl" then stlBranch env sel
  else if ext = ".json" then jsonBranch env sel
  else if ext = ".stepzip" then stepzipBranch env sel
  else ⟨[Effect.logError, Effect.eraseAll], none⟩

/-- The non-directory half of the handler: log the extension, then dispatch
on splitext(sel)[1].lower(). -/
def fileDispatch (env : Env) (sel : String) : Run :=
  Run.seq ⟨[Effect.logInfo], none⟩
    (extDispatch env sel (lowerStr (splitext sel).2))

/-- ThreeDPanel.on_selected_change (three_d.py lines 124-345). -/
def on_selected_change (env : Env) (sel : String) : Run :=
  Run.seq ⟨[Effect.logDebug, Effect.logDebug], none⟩
    (Run.seq
      (if env.isDir sel then ⟨[Effect.eraseAll], none⟩ else fileDispatch env sel)
      ⟨[Effect.layout, Effect.logDebug], none⟩)

/-! ## three_d.py: derived notions used by the claims -/

/-- The import action named by the specification's dispatch table. -/
inductive ImportAction where
  | pythonScript
  | stepImp
  | igesImp
  | stlImp
  | jsonLibrary
  | stepzipImp
  | noImport
  deriving DecidableEq

/-- Rendering of the specification's words for claim C1: the fixed mapping
from a lowercased extension to an import action. -/
def specActionOfExt (ext : String) : ImportAction :=
  if ext = ".py" then ImportAction.pythonScript
  else if ext = ".step" ∨ ext = ".stp" then ImportAction.stepImp
  else if ext = ".iges" ∨ ext = ".igs" then ImportAction.igesImp
  else if ext = ".stl" then ImportAction.stlImp
  else if ext = ".json" then ImportAction.jsonLibrary
  else if ext = ".stepzip" then ImportAction.stepzipImp
  else ImportAction.noImport

/-- The run of the handler branch serving an import action. -/
def actionRun (env : Env) (sel : String) : ImportAction → Run
  | ImportAction.pythonScript => pyBranch env sel
  | ImportAction.stepImp => stepBranch env sel
  | ImportAction.igesImp => igesBranch env sel
  | ImportAction.stlImp => stlBranch env sel
  | ImportAction.jsonLibrary => jsonBranch env sel
  | ImportAction.stepzipImp => stepzipBranch env sel
  | ImportAction.noImport => ⟨[Effect.logError, Effect.eraseAll], none⟩

/-- The display action chosen for a loaded .py module. -/
inductive DisplayChoice where
  | shapes
  | assembly
  | assemblies
  | shapeAnchored
  | shapeBare
  | nothing
  deriving DecidableEq

/-- Rendering of the claim C5 precedence order over the module attributes. -/
def specChoice (m : PyModule) : DisplayChoice :=
  if m.hasShapes then DisplayChoice.shapes
  else if m.hasAssembly then DisplayChoice.assembly
  else if m.hasAssemblies then DisplayChoice.assemblies
  else if m.hasShape then
    (if m.hasAnchors then DisplayChoice.shapeAnchored else DisplayChoice.shapeBare)
  else DisplayChoice.nothing

/-- The run of each display action of the .py attribute dispatch. -/
def choiceRun (env : Env) (sel : String) (m : PyModule) : DisplayChoice → Run
  | DisplayChoice.shapes =>
    ⟨Effect.logInfo ::
       (List.range m.shapesCount).map (fun _ => Effect.displayShape), none⟩
  | DisplayChoice.assembly =>
    ⟨Effect.logInfo ::
       (if m.assemblyKeyErr then
          [Effect.displayAssembly, Effect.eraseAll, Effect.logException]
        else [Effect.displayAssembly, Effect.fitAll]), none⟩
  | DisplayChoice.assemblies =>
    ⟨Effect.logInfo ::
       (if m.assembliesKeyErr then
          [Effect.displayAssemblies, Effect.eraseAll, Effect.logException]
        else [Effect.displayAssemblies, Effect.fitAll]), none⟩
  | DisplayChoice.shapeAnchored =>
    match env.anchorScript sel with
    | Except.error e => ⟨[Effect.logInfo], some e⟩
    | Except.ok _ => ⟨[Effect.logInfo, Effect.displayPart, Effect.fitAll], none⟩
  | DisplayChoice.shapeBare =>
    ⟨[Effect.logInfo, Effect.displayShape, Effect.fitAll], none⟩
  | DisplayChoice.nothing => ⟨[Effect.eraseAll, Effect.logWarning], none⟩

/-- Is the effect the creation or destruction of a busy indicator? -/
def isBusyEv : Effect → Bool
  | Effect.busyCreate => true
  | Effect.busyDestroy => true
  | _ => false

/-- Is the effect part of an import (loader, importer or display work)? -/
def isImport : Effect → Bool
  | Effect.execPython => true
  | Effect.stepImport => true
  | Effect.igesImport => true
  | Effect.stlImport => true
  | Effect.jsonLoad => true
  | Effect.libraryLoad => true
  | Effect.stepzipLoad => true
  | Effect.displayShape => true
  | Effect.displayPart => true
  | Effect.displayAssembly => true
  | Effect.displayAssemblies => true
  | Effect.displayMessage => true
  | Effect.fitAll => true
  | _ => false

/-- Scan of a trace from a busy-indicator depth: true when every create is
matched by a destroy, no destroy is unmatched, the scan ends at the starting
depth zero, and every import effect happens behind a live busy indicator. -/
def busyScan : List Effect → Nat → Bool
  | [], d => d == 0
  | e :: es, d =>
    if e = Effect.busyCreate then busyScan es (d + 1)
    else if e = Effect.busyDestroy then (d != 0) && busyScan es (d - 1)
    else (!(isImport e) || (d != 0)) && busyScan es d

/-! ## cadracks_ide_ui.py: configuration -/

/-- A value held by a ConfigObj entry: a plain string or a list of strings. -/
inductive CfgVal where
  | s (v : String)
  | ls (v : List String)
  deriving DecidableEq

/-- A ConfigObj section and a whole ConfigObj. -/
abbrev CfgSection := List (String × CfgVal)

abbrev Cfg := List (String × CfgSection)

/-- The exceptions caught by the configuration prologue. -/
inductive PyErr where
  | typeErr
  | keyErr
  deriving DecidableEq

/-- Association-list lookup. -/
def alistGet {α : Type} (l : List (String × α)) (k : String) : Option α :=
  (l.find? (fun p => p.1 == k)).map (fun p => p.2)

/-- Subscripting the configuration with a section name: None[...] raises
TypeError, a missing section raises KeyError. -/
def cfgSec (c : Option Cfg) (name : String) : Except PyErr CfgSection :=
  match c with
  | none => Except.error PyErr.typeErr
  | some cfg =>
    match alistGet cfg name with
    | none => Except.error PyErr.keyErr
    | some s => Except.ok s

/-- Subscripting a section with a key: a missing key raises KeyError. -/
def secKey (s : CfgSection) (k : String) : Except PyErr CfgVal :=
  match alistGet s k with
  | none => Except.error PyErr.keyErr
  | some v => Except.ok v

/-- Iterating a ConfigObj value: a list yields its items, a string yields its
characters. -/
def pyIter (v : CfgVal) : List String :=
  match v with
  | CfgVal.ls l => l
  | CfgVal.s str => str.data.map (fun c => String.mk [c])

/-- float(value): a list argument raises TypeError; string parsing is the
abstract oracle pf. -/
def pyFloatOf (pf : String → ℚ) (v : CfgVal) : Except PyErr ℚ :=
  match v with
  | CfgVal.s str => Except.ok (pf str)
  | CfgVal.ls _ => Except.error PyErr.typeErr

/-- int(value): a list argument raises TypeError; string parsing is the
abstract oracle pint. -/
def pyIntOf (pint : String → ℤ) (v : CfgVal) : Except PyErr ℤ :=
  match v with
  | CfgVal.s str => Except.ok (pint str)
  | CfgVal.ls _ => Except.error PyErr.typeErr

/-- The comparison  value == "True"  used for the two frame booleans. -/
def eqTrueStr (v : CfgVal) : Bool :=
  match v with
  | CfgVal.s x => x == "True"
  | CfgVal.ls _ => false

/-- The settings computed by the configuration prologue of
CadracksIdeFrame.__init__. -/
structure FrameSettings where
  frame_maximize : Bool
  confirm_close : Bool
  viewer_background_colour : List ℚ
  objects_transparency : ℚ
  text_height : ℤ
  text_colour : List ℚ
  deriving DecidableEq

/-- The built-in defaults of the except branch
(cadracks_ide_ui.py lines 100-107). -/
def defaultSettings : FrameSettings :=
  ⟨true, true, [50, 50, 50], 0.2, 20, [0, 0, 0]⟩

/-- The try block of the configuration prologue
(cadracks_ide_ui.py lines 92-99). -/
def readCfgSettings (pf : String → ℚ) (pint : String → ℤ) (c : Option Cfg) :
    Except PyErr FrameSettings := do
  let fr ← cfgSec c "frame"
  let fm ← secKey fr "maximize"
  let cc ← secKey (← cfgSec c "frame") "confirm_close"
  let vw ← cfgSec c "viewer"
  let bg ← secKey vw "viewer_background_colour"
  let tr ← pyFloatOf pf (← secKey (← cfgSec c "viewer") "objects_transparency")
  let th ← pyIntOf pint (← secKey (← cfgSec c "viewer") "text_height")
  let tc ← secKey (← cfgSec c "viewer") "text_colour"
  Except.ok
    ⟨eqTrueStr fm, eqTrueStr cc, (pyIter bg).map pf, tr, th, (pyIter tc).map pf⟩

/-- The whole prologue: the try block with its except (TypeError, KeyError)
fallback to the defaults. -/
def frameSettingsOf (pf : String → ℚ) (pint : String → ℤ) (c : Option Cfg) :
    FrameSettings :=
  match readCfgSettings pf pint c with
  | Except.ok s => s
  | Except.error _ => defaultSettings

/-- cadracks_ide_ui.get_config: None when no cadracks-ide.ini exists,
otherwise the parsed ConfigObj. -/
def get_config (iniExists : Bool) (parsed : Cfg) : Option Cfg :=
  if iniExists then some parsed else none

/-! ## Concrete inputs used by witnesses and counterexamples -/

/-- A module without any of the recognized attributes. -/
def pyModNone : PyModule :=
  ⟨false, false, false, false, false, false, 0, false, false⟩

/-- A world where every external call succeeds trivially. -/
def envBase : Env :=
  ⟨fun _ => false, fun _ => "", fun _ => true,
   fun _ => Except.ok pyModNone, fun _ => Except.ok 1, fun _ => Except.ok 1,
   fun _ => Except.ok (), fun _ => Except.ok [], fun _ _ => Except.ok (),
   fun _ => Except.ok (), fun _ => Except.ok ()⟩

/-- A world where imp.load_source raises. -/
def envPyLoadFail : Env :=
  { envBase with loadSource := fun _ => Except.error "load failure" }

/-- A world where the STEP importer raises. -/
def envStepFail : Env :=
  { envBase with stepShapes := fun _ => Except.error "step failure" }

/-- A world where the selected file's text lacks the substring "metadata". -/
def envJsonNoMeta : Env :=
  { envBase with read := fun _ => "plain data" }

/-- A world where the selected file's text contains "metadata". -/
def envJsonMeta : Env :=
  { envBase with read := fun _ => "has metadata inside",
                 jsonKeys := fun _ => Except.ok ["k1"] }

/-- A world where the selected file is not valid Python. -/
def envPyBad : Env :=
  { envBase with isValidPython := fun _ => false }

/-- A directory oracle used by the C10 witness. -/
def isDirW : String → Bool := fun s => s == "mydir"

/-! ## Helper lemmas about runs and the handler trace -/

theorem seq_mk_events (l : List Effect) (b : Run) :
    (Run.seq ⟨l, none⟩ b).events = l ++ b.events := rfl

theorem seq_mk_exc (l : List Effect) (b : Run) :
    (Run.seq ⟨l, none⟩ b).exc = b.exc := rfl

theorem busyTryLog_exc (r : Run) : (busyTryLog r).exc = none := rfl

theorem pyBranch_exc (env : Env) (sel : String) : (pyBranch env sel).exc = none := by
  unfold pyBranch
  split <;> rfl

theorem jsonBranch_exc (env : Env) (sel : String) :
    (jsonBranch env sel).exc = none := by
  unfold jsonBranch
  rw [seq_mk_exc]
  split <;> rfl

theorem extDispatch_exc (env : Env) (sel ext : String) :
    (extDispatch env sel ext).exc = none := by
  unfold extDispatch
  split_ifs <;>
    first
      | exact pyBranch_exc env sel
      | exact jsonBranch_exc env sel
      | rfl

theorem fileDispatch_exc (env : Env) (sel : String) :
    (fileDispatch env sel).exc = none := by
  unfold fileDispatch
  rw [seq_mk_exc]
  exact extDispatch_exc env sel _

theorem mid_exc (env : Env) (sel : String) :
    (if env.isDir sel then (⟨[Effect.eraseAll], none⟩ : Run)
     else fileDispatch env sel).exc = none := by
  by_cases hd : env.isDir sel
  · simp [hd]
  · simp [hd, fileDispatch_exc]

theorem on_selected_change_exc (env : Env) (sel : String) :
    (on_selected_change env sel).exc = none := by
  unfold on_selected_change
  rw [seq_mk_exc]
  unfold Run.seq
  rw [mid_exc]

theorem on_selected_change_events (env : Env) (sel : String) :
    (on_selected_change env sel).events =
      [Effect.logDebug, Effect.logDebug] ++
        ((if env.isDir sel then [Effect.eraseAll]
          else (fileDispatch env sel).events) ++
          [Effect.layout, Effect.logDebug]) := by
  unfold on_selected_change
  rw [seq_mk_events]
  congr 1
  by_cases hd : env.isDir sel
  · simp [hd, Run.seq]
  · simp only [hd, if_neg, Bool.false_eq_true, if_false]
    unfold Run.seq
    rw [fileDispatch_exc]

theorem fileDispatch_events (env : Env) (sel : String) :
    (fileDispatch env sel).events =
      Effect.logInfo :: (extDispatch env sel (lowerStr (splitext sel).2)).events := by
  unfold fileDispatch
  rw [seq_mk_events]
  rfl

/-- Claim C6: for every shape selected in the viewer, the info readout
reports bounding-box dimensions dx = xmax - xmin, dy = ymax - ymin,
dz = zmax - zmin and bounding-box center (xmin + dx/2, ymin + dy/2,
zmin + dz/2), which is the midpoint of the box. -/
theorem C6_bbox (b : BndBox) :
    (display_extra_info b).dx = b.xmax - b.xmin ∧
    (display_extra_info b).dy = b.ymax - b.ymin ∧
    (display_extra_info b).dz = b.zmax - b.zmin ∧
    (display_extra_info b).cx = b.xmin + (b.xmax - b.xmin) / 2 ∧
    (display_extra_info b).cy = b.ymin + (b.ymax - b.ymin) / 2 ∧
    (display_extra_info b).cz = b.zmin + (b.zmax - b.zmin) / 2 ∧
    (display_extra_info b).cx = (b.xmin + b.xmax) / 2 ∧
    (display_extra_info b).cy = (b.ymin + b.ymax) / 2 ∧
    (display_extra_info b).cz = (b.zmin + b.zmax) / 2 := by
  refine ⟨rfl, rfl, rfl, rfl, rfl, rfl, ?_, ?_, ?_⟩ <;>
    simp [display_extra_info] <;> ring

/-- Claim C8: the model state is the record of the three string fields
root_folder, selected and code; set_root_folder sets root_folder and emits
the root_folder_changed notification leaving selected and code unchanged,
and set_selected sets selected and emits the selected_changed notification
leaving root_folder and code unchanged. -/
theorem C8_model (m : Model) (r s : String) :
    (set_root_folder m r).1.root_folder = r ∧
    (set_root_folder m r).1.selected = m.selected ∧
    (set_root_folder m r).1.code = m.code ∧
    MEffect.notify "root_folder_changed" ∈ (set_root_folder m r).2 ∧
    (set_selected m s).1.selected = s ∧
    (set_selected m s).1.root_folder = m.root_folder ∧
    (set_selected m s).1.code = m.code ∧
    MEffect.notify "selected_changed" ∈ (set_selected m s).2 := by
  refine ⟨rfl, rfl, rfl, ?_, rfl, rfl, rfl, ?_⟩ <;>
    simp [set_root_folder, set_selected]

/-! ## String lemmas for claim C10 -/

theorem tw_all {α : Type} (p : α → Bool) (a b : List α)
    (h : ∀ x ∈ a, p x = true) :
    (a ++ b).takeWhile p = a ++ b.takeWhile p := by
  induction a with
  | nil => simp
  | cons x xs ih =>
    have hx : p x = true := h x (by simp)
    simp only [List.cons_append, List.takeWhile_cons, hx, if_true]
    rw [ih (fun y hy => h y (by simp [hy]))]

theorem tw_stop {α : Type} (p : α → Bool) (a b : List α)
    (h : ∃ x ∈ a, p x = false) :
    (a ++ b).takeWhile p = a.takeWhile p := by
  induction a with
  | nil => simp at h
  | cons x xs ih =>
    by_cases hx : p x = true
    · obtain ⟨y, hy, hpy⟩ := h
      rcases List.mem_cons.mp hy with rfl | hy2
      · rw [hx] at hpy
        cases hpy
      · simp only [List.cons_append, List.takeWhile_cons, hx, if_true]
        rw [ih ⟨y, hy2, hpy⟩]
    · have hx2 : p x = false := by
        revert hx
        cases p x <;> simp
      simp [List.takeWhile_cons, hx2]

theorem rfindIdxO_eq_none (l : List Char) (c : Char) :
    rfindIdxO l c = none ↔ c ∉ l := by
  induction l with
  | nil => simp [rfindIdxO]
  | cons x xs ih =>
    unfold rfindIdxO
    cases hx : rfindIdxO xs c with
    | some i =>
      simp only [hx]
      constructor
      · intro h
        cases h
      · intro h
        exact absurd (ih.not.mp (by simp [hx])) (by simp at h; tauto)
    | none =>
      have hmem : c ∉ xs := ih.mp hx
      by_cases hxc : x = c
      · subst hxc
        simp
      · simp [hxc, hmem, Ne.symm hxc]

theorem rfindIdxO_mem (l : List Char) (c : Char) (i : Nat)
    (h : rfindIdxO l c = some i) : c ∈ l := by
  by_contra hmem
  rw [(rfindIdxO_eq_none l c).mpr hmem] at h
  cases h

theorem drop_rfindIdxO (c : Char) (l : List Char) (i : Nat)
    (h : rfindIdxO l c = some i) :
    l.drop i = c :: (l.reverse.takeWhile (fun x => x != c)).reverse := by
  induction l generalizing i with
  | nil => cases h
  | cons x xs ih =>
    unfold rfindIdxO at h
    cases hx : rfindIdxO xs c with
    | some j =>
      rw [hx] at h
      injection h with h'
      subst h'
      have hd : (x :: xs).drop (j + 1) = xs.drop j := rfl
      rw [hd, ih j hx]
      have hmem : c ∈ xs := rfindIdxO_mem xs c j hx
      have htw : (xs.reverse ++ [x]).takeWhile (fun y => y != c) =
          xs.reverse.takeWhile (fun y => y != c) :=
        tw_stop _ _ _ ⟨c, by simp [hmem], by simp⟩
      simp [List.reverse_cons, htw]
    | none =>
      rw [hx] at h
      by_cases hxc : x = c
      · subst hxc
        rw [if_pos rfl] at h
        injection h with h'
        subst h'
        have hnc : x ∉ xs := (rfindIdxO_eq_none xs x).mp hx
        have htw : (xs.reverse ++ [x]).takeWhile (fun y => y != x) =
            xs.reverse ++ [x].takeWhile (fun y => y != x) := by
          refine tw_all _ _ _ ?_
          intro y hy
          simp only [List.mem_reverse] at hy
          simp only [bne_iff_ne, ne_eq, decide_eq_true_eq]
          intro hyc
          exact hnc (hyc ▸ hy)
        simp [List.reverse_cons, htw, List.takeWhile_cons]
      · rw [if_neg hxc] at h
        cases h

/-- Claim C10: get_file_extension returns "directory" for a directory path;
for a non-directory name holding a period it returns the lowercased,
whitespace-stripped substring starting at the last period; for a
non-directory name without a period it returns the empty string. -/
theorem C10_ext (isDir : String → Bool) (fn : String) :
    (isDir fn = true → get_file_extension isDir fn = "directory") ∧
    (isDir fn = false → '.' ∈ fn.data →
      get_file_extension isDir fn =
        lowerStr (String.mk (stripChars (specLastPeriodSuffix fn.data)))) ∧
    (isDir fn = false → '.' ∉ fn.data → get_file_extension isDir fn = "") := by
  refine ⟨?_, ?_, ?_⟩
  · intro h
    simp [get_file_extension, h]
  · intro h hmem
    cases hfi : rfindIdxO fn.data '.' with
    | none => exact absurd ((rfindIdxO_eq_none _ _).mp hfi) (by simp [hmem])
    | some i =>
      simp only [get_file_extension, h, Bool.not_false, if_true, hfi]
      rw [drop_rfindIdxO '.' fn.data i hfi]
      rfl
  · intro h hmem
    simp [get_file_extension, h, (rfindIdxO_eq_none _ _).mpr hmem]

/-- Claim C10 witness at a directory, a name with periods and whitespace,
and a period-free name. -/
theorem C10_ext_w :
    (isDirW "mydir" = true ∧ get_file_extension isDirW "mydir" = "directory") ∧
    (isDirW "a.TXT" = false ∧ '.' ∈ "a.TXT".data ∧
      get_file_extension isDirW "a.TXT" =
        lowerStr (String.mk (stripChars (specLastPeriodSuffix "a.TXT".data)))) ∧
    (isDirW "noext" = false ∧ '.' ∉ "noext".data ∧
      get_file_extension isDirW "noext" = "") := by
  refine ⟨⟨by decide, (C10_ext isDirW "mydir").1 (by decide)⟩,
          ⟨by decide, by decide, (C10_ext isDirW "a.TXT").2.1 (by decide) (by decide)⟩,
          ⟨by decide, by decide, (C10_ext isDirW "noext").2.2 (by decide) (by decide)⟩⟩

/-- Claim C9: with no cadracks-ide.ini (get_config returning None), or when
reading a required key raises TypeError or KeyError, the frame proceeds with
the built-in defaults: maximize True, confirm-close True, background colour
(50, 50, 50), transparency 0.2, text height 20, text colour (0, 0, 0). -/
theorem C9_defaults (pf : String → ℚ) (pint : String → ℤ) (parsed : Cfg) :
    frameSettingsOf pf pint (get_config false parsed) = defaultSettings ∧
    (∀ (c : Cfg) (e : PyErr), readCfgSettings pf pint (some c) = Except.error e →
      frameSettingsOf pf pint (some c) = defaultSettings) ∧
    defaultSettings = ⟨true, true, [50, 50, 50], 0.2, 20, [0, 0, 0]⟩ := by
  refine ⟨rfl, ?_, rfl⟩
  intro c e h
  unfold frameSettingsOf
  rw [h]

/-- Claim C9 witness: a present but empty configuration raises KeyError and
the defaults are used; an absent ini file yields None and the defaults. -/
theorem C9_defaults_w :
    get_config false [] = none ∧
    readCfgSettings (fun _ => (0 : ℚ)) (fun _ => (0 : ℤ)) (some []) =
      Except.error PyErr.keyErr ∧
    frameSettingsOf (fun _ => (0 : ℚ)) (fun _ => (0 : ℤ)) (get_config false []) =
      defaultSettings ∧
    frameSettingsOf (fun _ => (0 : ℚ)) (fun _ => (0 : ℤ)) (some []) =
      defaultSettings :=
  ⟨rfl, rfl, (C9_defaults (fun _ => 0) (fun _ => 0) []).1,
   (C9_defaults (fun _ => 0) (fun _ => 0) []).2.1 [] PyErr.keyErr rfl⟩

/-! ## Resolution of the extension dispatch chain at each literal extension -/

theorem extDispatch_py (env : Env) (sel : String) :
    extDispatch env sel ".py" = pyBranch env sel := by
  unfold extDispatch
  rw [if_pos rfl]

theorem extDispatch_step (env : Env) (sel : String) :
    extDispatch env sel ".step" = stepBranch env sel := by
  unfold extDispatch
  rw [if_neg (by decide), if_pos (by decide)]

theorem extDispatch_stp (env : Env) (sel : String) :
    extDispatch env sel ".stp" = stepBranch env sel := by
  unfold extDispatch
  rw [if_neg (by decide), if_pos (by decide)]

theorem extDispatch_iges (env : Env) (sel : String) :
    extDispatch env sel ".iges" = igesBranch env sel := by
  unfold extDispatch
  rw [if_neg (by decide), if_neg (by decide), if_pos (by decide)]

theorem extDispatch_igs (env : Env) (sel : String) :
    extDispatch env sel ".igs" = igesBranch env sel := by
  unfold extDispatch
  rw [if_neg (by decide), if_neg (by decide), if_pos (by decide)]

theorem extDispatch_stl (env : Env) (sel : String) :
    extDispatch env sel ".stl" = stlBranch env sel := by
  unfold extDispatch
  rw [if_neg (by decide), if_neg (by decide), if_neg (by decide),
      if_pos (by decide)]

theorem extDispatch_json (env : Env) (sel : String) :
    extDispatch env sel ".json" = jsonBranch env sel := by
  unfold extDispatch
  rw [if_neg (by decide), if_neg (by decide), if_neg (by decide),
      if_neg (by decide), if_pos (by decide)]

theorem extDispatch_stepzip (env : Env) (sel : String) :
    extDispatch env sel ".stepzip" = stepzipBranch env sel := by
  unfold extDispatch
  rw [if_neg (by decide), if_neg (by decide), if_neg (by decide),
      if_neg (by decide), if_neg (by decide), if_pos (by decide)]

theorem extDispatch_spec (env : Env) (sel ext : String) :
    extDispatch env sel ext = actionRun env sel (specActionOfExt ext) := by
  unfold extDispatch specActionOfExt
  split_ifs <;> rfl

/-- Claim C1: for a non-directory selection the handler's behavior is the
branch chosen by the fixed extension-to-action mapping applied to the
lowercased splitext extension, and an unrecognized extension yields no
importing at all, an error log entry, and a cleared viewport. -/
theorem C1_dispatch (env : Env) (sel : String) (h : env.isDir sel = false) :
    (on_selected_change env sel).events =
      [Effect.logDebug, Effect.logDebug, Effect.logInfo] ++
        (actionRun env sel (specActionOfExt (lowerStr (splitext sel).2))).events ++
        [Effect.layout, Effect.logDebug] ∧
    actionRun env sel ImportAction.noImport =
      ⟨[Effect.logError, Effect.eraseAll], none⟩ := by
  refine ⟨?_, rfl⟩
  rw [on_selected_change_events, if_neg (by simp [h]), fileDispatch_events,
      extDispatch_spec]
  simp

/-- Claim C1 witness at a concrete .stl selection. -/
theorem C1_dispatch_w :
    envBase.isDir "a.stl" = false ∧
    ((on_selected_change envBase "a.stl").events =
      [Effect.logDebug, Effect.logDebug, Effect.logInfo] ++
        (actionRun envBase "a.stl"
          (specActionOfExt (lowerStr (splitext "a.stl").2))).events ++
        [Effect.layout, Effect.logDebug] ∧
      actionRun envBase "a.stl" ImportAction.noImport =
        ⟨[Effect.logError, Effect.eraseAll], none⟩) :=
  ⟨rfl, C1_dispatch envBase "a.stl" rfl⟩

/-- Claim C3: a selected .json file is treated as a parts-library manifest
if and only if its raw text contains the substring "metadata"; when the
substring is absent no import is attempted and the viewport stays cleared. -/
theorem C3_metadata (env : Env) (sel : String) (hd : env.isDir sel = false)
    (hext : lowerStr (splitext sel).2 = ".json") :
    (containsSeq "metadata" (env.read sel) = false →
      (on_selected_change env sel).events =
        [Effect.logDebug, Effect.logDebug, Effect.logInfo, Effect.eraseAll,
         Effect.layout, Effect.logDebug]) ∧
    (containsSeq "metadata" (env.read sel) = true →
      (on_selected_change env sel).events =
        [Effect.logDebug, Effect.logDebug, Effect.logInfo, Effect.eraseAll] ++
          (busyTryLog (jsonTryBody env sel)).events ++
          [Effect.layout, Effect.logDebug]) := by
  have hbase : (on_selected_change env sel).events =
      [Effect.logDebug, Effect.logDebug] ++
        ((Effect.logInfo :: (jsonBranch env sel).events) ++
          [Effect.layout, Effect.logDebug]) := by
    rw [on_selected_change_events, if_neg (by simp [hd]), fileDispatch_events,
        hext, extDispatch_json]
  constructor
  · intro hmeta
    rw [hbase]
    unfold jsonBranch
    rw [seq_mk_events]
    simp [hmeta]
  · intro hmeta
    rw [hbase]
    unfold jsonBranch
    rw [seq_mk_events]
    simp [hmeta]

/-- Claim C3 witness: concrete .json selections with and without the
"metadata" marker. -/
theorem C3_metadata_w :
    (envJsonNoMeta.isDir "a.json" = false ∧
     containsSeq "metadata" (envJsonNoMeta.read "a.json") = false ∧
     (on_selected_change envJsonNoMeta "a.json").events =
       [Effect.logDebug, Effect.logDebug, Effect.logInfo, Effect.eraseAll,
        Effect.layout, Effect.logDebug]) ∧
    (envJsonMeta.isDir "b.json" = false ∧
     containsSeq "metadata" (envJsonMeta.read "b.json") = true ∧
     (on_selected_change envJsonMeta "b.json").events =
       [Effect.logDebug, Effect.logDebug, Effect.logInfo, Effect.eraseAll] ++
         (busyTryLog (jsonTryBody envJsonMeta "b.json")).events ++
         [Effect.layout, Effect.logDebug]) :=
  ⟨⟨rfl, by decide,
    (C3_metadata envJsonNoMeta "a.json" rfl (by decide)).1 (by decide)⟩,
   ⟨rfl, by decide,
    (C3_metadata envJsonMeta "b.json" rfl (by decide)).2 (by decide)⟩⟩

/-- Claim C4: a selected .py file is executed only when is_valid_python
accepts its content; invalid content means no execution, a warning log entry
and a cleared viewport. -/
theorem C4_guard (env : Env) (sel : String) (hd : env.isDir sel = false)
    (hext : lowerStr (splitext sel).2 = ".py") :
    (env.isValidPython (env.read sel) = false →
      (on_selected_change env sel).events =
        [Effect.logDebug, Effect.logDebug, Effect.logInfo, Effect.logWarning,
         Effect.eraseAll, Effect.layout, Effect.logDebug]) ∧
    (Effect.execPython ∈ (on_selected_change env sel).events →
      env.isValidPython (env.read sel) = true) := by
  have hbase : (on_selected_change env sel).events =
      [Effect.logDebug, Effect.logDebug] ++
        ((Effect.logInfo :: (pyBranch env sel).events) ++
          [Effect.layout, Effect.logDebug]) := by
    rw [on_selected_change_events, if_neg (by simp [hd]), fileDispatch_events,
        hext, extDispatch_py]
  constructor
  · intro hval
    rw [hbase]
    simp [pyBranch, hval]
  · intro hm
    by_cases hval : env.isValidPython (env.read sel) = true
    · exact hval
    · exfalso
      have hval2 : env.isValidPython (env.read sel) = false := by
        revert hval
        cases env.isValidPython (env.read sel) <;> simp
      rw [hbase] at hm
      simp [pyBranch, hval2] at hm

/-- Claim C4 witness: a concrete invalid .py selection is not executed. -/
theorem C4_guard_w :
    envPyBad.isDir "a.py" = false ∧
    envPyBad.isValidPython (envPyBad.read "a.py") = false ∧
    (on_selected_change envPyBad "a.py").events =
      [Effect.logDebug, Effect.logDebug, Effect.logInfo, Effect.logWarning,
       Effect.eraseAll, Effect.layout, Effect.logDebug] :=
  ⟨rfl, rfl, (C4_guard envPyBad "a.py" rfl (by decide)).1 rfl⟩

/-- Claim C5: the display action for a loaded module follows the attribute
precedence shapes, assembly, assemblies, shape (anchored when anchors are
present, bare otherwise), with a cleared viewport and a warning when none is
present; attributes later in the order are ignored. -/
theorem C5_precedence (env : Env) (sel : String) (m : PyModule) :
    pyModuleDisplay env sel m = choiceRun env sel m (specChoice m) ∧
    (m.hasShapes = true → specChoice m = DisplayChoice.shapes) ∧
    (m.hasShapes = false → m.hasAssembly = true →
      specChoice m = DisplayChoice.assembly) ∧
    (m.hasShapes = false → m.hasAssembly = false → m.hasAssemblies = true →
      specChoice m = DisplayChoice.assemblies) ∧
    (m.hasShapes = false → m.hasAssembly = false → m.hasAssemblies = false →
      m.hasShape = true → m.hasAnchors = true →
      specChoice m = DisplayChoice.shapeAnchored) ∧
    (m.hasShapes = false → m.hasAssembly = false → m.hasAssemblies = false →
      m.hasShape = true → m.hasAnchors = false →
      specChoice m = DisplayChoice.shapeBare) ∧
    (m.hasShapes = false → m.hasAssembly = false → m.hasAssemblies = false →
      m.hasShape = false →
      specChoice m = DisplayChoice.nothing ∧
        choiceRun env sel m DisplayChoice.nothing =
          ⟨[Effect.eraseAll, Effect.logWarning], none⟩) := by
  refine ⟨?_, ?_, ?_, ?_, ?_, ?_, ?_⟩
  · unfold pyModuleDisplay specChoice choiceRun
    split_ifs <;> simp_all
  · intro h1
    simp [specChoice, h1]
  · intro h1 h2
    simp [specChoice, h1, h2]
  · intro h1 h2 h3
    simp [specChoice, h1, h2, h3]
  · intro h1 h2 h3 h4 h5
    simp [specChoice, h1, h2, h3, h4, h5]
  · intro h1 h2 h3 h4 h5
    simp [specChoice, h1, h2, h3, h4, h5]
  · intro h1 h2 h3 h4
    exact ⟨by simp [specChoice, h1, h2, h3, h4], rfl⟩

/-- Claim C5 witness: modules exercising each precedence case, including one
defining every attribute at once. -/
theorem C5_precedence_w :
    pyModuleDisplay envBase "x.py" ⟨true, true, true, true, true, true, 2, false, false⟩ =
      choiceRun envBase "x.py" ⟨true, true, true, true, true, true, 2, false, false⟩
        (specChoice ⟨true, true, true, true, true, true, 2, false, false⟩) ∧
    specChoice ⟨true, true, true, true, true, true, 2, false, false⟩ =
      DisplayChoice.shapes ∧
    specChoice ⟨true, false, true, false, true, true, 0, false, false⟩ =
      DisplayChoice.assembly ∧
    specChoice ⟨true, false, true, false, false, true, 0, false, false⟩ =
      DisplayChoice.assemblies ∧
    specChoice ⟨true, false, true, false, false, false, 0, false, false⟩ =
      DisplayChoice.shapeAnchored ∧
    specChoice ⟨true, false, false, false, false, false, 0, false, false⟩ =
      DisplayChoice.shapeBare ∧
    specChoice pyModNone = DisplayChoice.nothing :=
  ⟨(C5_precedence envBase "x.py" _).1,
   (C5_precedence envBase "x.py" _).2.1 rfl,
   (C5_precedence envBase "x.py" ⟨true, false, true, false, true, true, 0, false, false⟩).2.2.1 rfl rfl,
   (C5_precedence envBase "x.py" ⟨true, false, true, false, false, true, 0, false, false⟩).2.2.2.1 rfl rfl rfl,
   (C5_precedence envBase "x.py" ⟨true, false, true, false, false, false, 0, false, false⟩).2.2.2.2.1 rfl rfl rfl rfl rfl,
   (C5_precedence envBase "x.py" ⟨true, false, false, false, false, false, 0, false, false⟩).2.2.2.2.2.1 rfl rfl rfl rfl rfl,
   ((C5_precedence envBase "x.py" pyModNone).2.2.2.2.2.2 rfl rfl rfl rfl).1⟩

/-- Claim C2 counterexample: when imp.load_source raises for a valid .py
selection, the handler logs the error but never clears the viewport, so the
claim that every caught import failure clears the viewport is false. -/
theorem C2_cex :
    envPyLoadFail.isDir "b.py" = false ∧
    envPyLoadFail.isValidPython (envPyLoadFail.read "b.py") = true ∧
    envPyLoadFail.loadSource "b.py" = Except.error "load failure" ∧
    Effect.logError ∈ (on_selected_change envPyLoadFail "b.py").events ∧
    Effect.eraseAll ∉ (on_selected_change envPyLoadFail "b.py").events := by
  refine ⟨rfl, rfl, rfl, ?_, ?_⟩ <;> decide

/-- Claim C2 as amended: a failure raised inside any import try block is
caught, logged and never escapes the handler; the viewport was cleared
before the import began in the .step/.stp, .iges/.igs, .stl, .json and
.stepzip branches, while in the .py branch the viewport is cleared only
after imp.load_source succeeds, so a load failure leaves it uncleared. -/
theorem C2_catch (env : Env) (sel : String) :
    (on_selected_change env sel).exc = none ∧
    (∀ msg, env.isDir sel = false → lowerStr (splitext sel).2 = ".py" →
      env.isValidPython (env.read sel) = true →
      env.loadSource sel = Except.error msg →
      (on_selected_change env sel).events =
        [Effect.logDebug, Effect.logDebug, Effect.logInfo, Effect.busyCreate,
         Effect.execPython, Effect.logError, Effect.busyDestroy, Effect.layout,
         Effect.logDebug]) ∧
    (∀ msg, env.isDir sel = false →
      (lowerStr (splitext sel).2 = ".step" ∨ lowerStr (splitext sel).2 = ".stp") →
      env.stepShapes sel = Except.error msg →
      (on_selected_change env sel).events =
        [Effect.logDebug, Effect.logDebug, Effect.logInfo, Effect.eraseAll,
         Effect.busyCreate, Effect.stepImport, Effect.logError,
         Effect.busyDestroy, Effect.layout, Effect.logDebug]) ∧
    (∀ msg, env.isDir sel = false →
      (lowerStr (splitext sel).2 = ".iges" ∨ lowerStr (splitext sel).2 = ".igs") →
      env.igesShapes sel = Except.error msg →
      (on_selected_change env sel).events =
        [Effect.logDebug, Effect.logDebug, Effect.logInfo, Effect.eraseAll,
         Effect.busyCreate, Effect.igesImport, Effect.logError,
         Effect.busyDestroy, Effect.layout, Effect.logDebug]) ∧
    (∀ msg, env.isDir sel = false → lowerStr (splitext sel).2 = ".stl" →
      env.stlLoad sel = Except.error msg →
      (on_selected_change env sel).events =
        [Effect.logDebug, Effect.logDebug, Effect.logInfo, Effect.eraseAll,
         Effect.busyCreate, Effect.stlImport, Effect.logError,
         Effect.busyDestroy, Effect.layout, Effect.logDebug]) ∧
    (∀ msg, env.isDir sel = false → lowerStr (splitext sel).2 = ".json" →
      containsSeq "metadata" (env.read sel) = true →
      env.jsonKeys sel = Except.error msg →
      (on_selected_change env sel).events =
        [Effect.logDebug, Effect.logDebug, Effect.logInfo, Effect.eraseAll,
         Effect.busyCreate, Effect.jsonLoad, Effect.logError,
         Effect.busyDestroy, Effect.layout, Effect.logDebug]) ∧
    (∀ msg, env.isDir sel = false → lowerStr (splitext sel).2 = ".stepzip" →
      env.stepzipPart sel = Except.error msg →
      (on_selected_change env sel).events =
        [Effect.logDebug, Effect.logDebug, Effect.logInfo, Effect.eraseAll,
         Effect.busyCreate, Effect.stepzipLoad, Effect.logError,
         Effect.busyDestroy, Effect.layout, Effect.logDebug]) := by
  refine ⟨on_selected_change_exc env sel, ?_, ?_, ?_, ?_, ?_, ?_⟩
  · intro msg hd hext hval herr
    rw [on_selected_change_events, if_neg (by simp [hd]), fileDispatch_events,
        hext, extDispatch_py]
    simp [pyBranch, hval, pyTryBody, herr, busyTryLog]
  · intro msg hd hext herr
    rcases hext with hext | hext <;>
      rw [on_selected_change_events, if_neg (by simp [hd]), fileDispatch_events,
          hext] <;>
      [rw [extDispatch_step]; rw [extDispatch_stp]] <;>
      simp [stepBranch, stepTryBody, herr, busyTryLog, Run.seq]
  · intro msg hd hext herr
    rcases hext with hext | hext <;>
      rw [on_selected_change_events, if_neg (by simp [hd]), fileDispatch_events,
          hext] <;>
      [rw [extDispatch_iges]; rw [extDispatch_igs]] <;>
      simp [igesBranch, igesTryBody, herr, busyTryLog, Run.seq]
  · intro msg hd hext herr
    rw [on_selected_change_events, if_neg (by simp [hd]), fileDispatch_events,
        hext, extDispatch_stl]
    simp [stlBranch, stlTryBody, herr, busyTryLog, Run.seq]
  · intro msg hd hext hmeta herr
    rw [on_selected_change_events, if_neg (by simp [hd]), fileDispatch_events,
        hext, extDispatch_json]
    simp [jsonBranch, hmeta, jsonTryBody, herr, busyTryLog, Run.seq]
  · intro msg hd hext herr
    rw [on_selected_change_events, if_neg (by simp [hd]), fileDispatch_events,
        hext, extDispatch_stepzip]
    simp [stepzipBranch, stepzipTryBody, herr, busyTryLog, Run.seq]

/-- Claim C2 witness: a failing STEP import is caught with the viewport
cleared first, and a failing .py module load is caught without clearing. -/
theorem C2_catch_w :
    (on_selected_change envStepFail "a.step").exc = none ∧
    (on_selected_change envStepFail "a.step").events =
      [Effect.logDebug, Effect.logDebug, Effect.logInfo, Effect.eraseAll,
       Effect.busyCreate, Effect.stepImport, Effect.logError,
       Effect.busyDestroy, Effect.layout, Effect.logDebug] ∧
    (on_selected_change envPyLoadFail "b.py").events =
      [Effect.logDebug, Effect.logDebug, Effect.logInfo, Effect.busyCreate,
       Effect.execPython, Effect.logError, Effect.busyDestroy, Effect.layout,
       Effect.logDebug] :=
  ⟨(C2_catch envStepFail "a.step").1,
   (C2_catch envStepFail "a.step").2.2.1 "step failure" rfl
     (Or.inl (by decide)) rfl,
   (C2_catch envPyLoadFail "b.py").2.1 "load failure" rfl (by decide) rfl rfl⟩

/-! ## Busy-indicator bracketing lemmas for claim C7 -/

theorem scan_cons_plain (e : Effect) (es : List Effect) (d : Nat)
    (hb : isBusyEv e = false) (hi : isImport e = false) :
    busyScan (e :: es) d = busyScan es d := by
  have h1 : e ≠ Effect.busyCreate := by
    intro hq
    subst hq
    simp [isBusyEv] at hb
  have h2 : e ≠ Effect.busyDestroy := by
    intro hq
    subst hq
    simp [isBusyEv] at hb
  simp [busyScan, h1, h2, hi]

theorem scan_append_deep (xs : List Effect)
    (h : ∀ e ∈ xs, isBusyEv e = false) :
    ∀ (ys : List Effect) (d : Nat),
      busyScan (xs ++ ys) (d + 1) = busyScan ys (d + 1) := by
  induction xs with
  | nil => intro ys d; rfl
  | cons e es ih =>
    intro ys d
    have hb : isBusyEv e = false := h e (by simp)
    have h1 : e ≠ Effect.busyCreate := by
      intro hq
      subst hq
      simp [isBusyEv] at hb
    have h2 : e ≠ Effect.busyDestroy := by
      intro hq
      subst hq
      simp [isBusyEv] at hb
    rw [List.cons_append]
    have hstep : busyScan (e :: (es ++ ys)) (d + 1) = busyScan (es ++ ys) (d + 1) := by
      simp [busyScan, h1, h2]
    rw [hstep, ih (fun x hx => h x (by simp [hx])) ys d]

theorem scan_bracket (r : Run) (h : ∀ e ∈ r.events, isBusyEv e = false) :
    ∀ (ys : List Effect) (d : Nat),
      busyScan ((busyTryLog r).events ++ ys) d = busyScan ys d := by
  intro ys d
  cases hexc : r.exc with
  | none =>
    simp only [busyTryLog, hexc, List.append_nil]
    rw [List.cons_append]
    have hstep : busyScan (Effect.busyCreate :: ((r.events ++ [Effect.busyDestroy]) ++ ys)) d =
        busyScan ((r.events ++ [Effect.busyDestroy]) ++ ys) (d + 1) := by
      simp [busyScan]
    rw [hstep, List.append_assoc, List.singleton_append,
        scan_append_deep r.events h (Effect.busyDestroy :: ys) d]
    simp [busyScan]
  | some msg =>
    simp only [busyTryLog, hexc]
    rw [List.cons_append]
    have hstep : busyScan (Effect.busyCreate ::
        ((r.events ++ [Effect.logError] ++ [Effect.busyDestroy]) ++ ys)) d =
        busyScan ((r.events ++ [Effect.logError] ++ [Effect.busyDestroy]) ++ ys) (d + 1) := by
      simp [busyScan]
    rw [hstep, List.append_assoc, List.append_assoc, List.singleton_append,
        List.singleton_append,
        scan_append_deep r.events h (Effect.logError :: Effect.busyDestroy :: ys) d,
        scan_cons_plain Effect.logError _ _ rfl rfl]
    simp [busyScan]

theorem nb_of_mem_map_const (c : Effect) (hc : isBusyEv c = false) (n : Nat) :
    ∀ e ∈ (List.range n).map (fun _ => c), isBusyEv e = false := by
  intro e he
  rcases List.mem_map.mp he with ⟨i, _, rfl⟩
  exact hc

theorem nb_of_mem_flatMap_pair (c1 c2 : Effect)
    (h1 : isBusyEv c1 = false) (h2 : isBusyEv c2 = false) (n : Nat) :
    ∀ e ∈ (List.range n).flatMap (fun _ => [c1, c2]), isBusyEv e = false := by
  intro e he
  rcases List.mem_flatMap.mp he with ⟨i, _, hm⟩
  simp only [List.mem_cons, List.mem_singleton, List.not_mem_nil, or_false] at hm
  rcases hm with rfl | rfl
  · exact h1
  · exact h2

theorem nb_pyModuleDisplay (env : Env) (sel : String) (m : PyModule) :
    ∀ e ∈ (pyModuleDisplay env sel m).events, isBusyEv e = false := by
  unfold pyModuleDisplay
  split_ifs
  · intro e he
    rcases List.mem_cons.mp he with rfl | he2
    · rfl
    · exact nb_of_mem_map_const Effect.displayShape rfl m.shapesCount e he2
  · intro e he
    fin_cases he <;> rfl
  · intro e he
    fin_cases he <;> rfl
  · intro e he
    fin_cases he <;> rfl
  · intro e he
    fin_cases he <;> rfl
  · intro e he
    fin_cases he <;> rfl
  · intro e he
    revert he
    cases hA : env.anchorScript sel with
    | error msg =>
      intro he
      fin_cases he
      rfl
    | ok u =>
      intro he
      fin_cases he <;> rfl
  · intro e he
    fin_cases he <;> rfl

theorem nb_pyTryBody (env : Env) (sel : String) :
    ∀ e ∈ (pyTryBody env sel).events, isBusyEv e = false := by
  unfold pyTryBody
  cases hL : env.loadSource sel with
  | error msg =>
    intro e he
    fin_cases he
    rfl
  | ok m =>
    intro e he
    rw [seq_mk_events] at he
    rcases List.mem_append.mp he with he2 | he2
    · fin_cases he2 <;> rfl
    · exact nb_pyModuleDisplay env sel m e he2

theorem nb_stepTryBody (env : Env) (sel : String) :
    ∀ e ∈ (stepTryBody env sel).events, isBusyEv e = false := by
  unfold stepTryBody
  cases hL : env.stepShapes sel with
  | error msg =>
    intro e he
    fin_cases he
    rfl
  | ok n =>
    intro e he
    rcases List.mem_cons.mp he with rfl | he2
    · rfl
    · rcases List.mem_cons.mp he2 with rfl | he3
      · rfl
      · exact nb_of_mem_flatMap_pair Effect.displayShape Effect.fitAll rfl rfl n e he3

theorem nb_igesTryBody (env : Env) (sel : String) :
    ∀ e ∈ (igesTryBody env sel).events, isBusyEv e = false := by
  unfold igesTryBody
  cases hL : env.igesShapes sel with
  | error msg =>
    intro e he
    fin_cases he
    rfl
  | ok n =>
    intro e he
    rcases List.mem_cons.mp he with rfl | he2
    · rfl
    · rcases List.mem_cons.mp he2 with rfl | he3
      · rfl
      · exact nb_of_mem_flatMap_pair Effect.displayShape Effect.fitAll rfl rfl n e he3

theorem nb_stlTryBody (env : Env) (sel : String) :
    ∀ e ∈ (stlTryBody env sel).events, isBusyEv e = false := by
  unfold stlTryBody
  cases hL : env.stlLoad sel with
  | error msg =>
    intro e he
    fin_cases he
    rfl
  | ok u =>
    intro e he
    fin_cases he <;> rfl

theorem nb_jsonLibLoop1 (env : Env) (sel : String) :
    ∀ (ks : List String), ∀ e ∈ (jsonLibLoop1 env sel ks).events,
      isBusyEv e = false := by
  intro ks
  induction ks with
  | nil => intro e he; cases he
  | cons k ks ih =>
    intro e he
    revert he
    unfold jsonLibLoop1
    cases hL : env.libraryPart sel k with
    | error msg =>
      intro he
      fin_cases he
      rfl
    | ok u =>
      intro he
      rw [seq_mk_events] at he
      rcases List.mem_append.mp he with he2 | he2
      · fin_cases he2
        rfl
      · exact ih e he2

theorem nb_jsonLibLoop2 (env : Env) (sel : String) :
    ∀ (ks : List String), ∀ e ∈ (jsonLibLoop2 env sel ks).events,
      isBusyEv e = false := by
  intro ks
  induction ks with
  | nil => intro e he; cases he
  | cons k ks ih =>
    intro e he
    revert he
    unfold jsonLibLoop2
    cases hL : env.libraryPart sel k with
    | error msg =>
      intro he
      fin_cases he
      rfl
    | ok u =>
      intro he
      rw [seq_mk_events] at he
      rcases List.mem_append.mp he with he2 | he2
      · fin_cases he2 <;> rfl
      · exact ih e he2

theorem nb_jsonTryBody (env : Env) (sel : String) :
    ∀ e ∈ (jsonTryBody env sel).events, isBusyEv e = false := by
  unfold jsonTryBody
  cases hL : env.jsonKeys sel with
  | error msg =>
    intro e he
    fin_cases he
    rfl
  | ok keys =>
    intro e he
    rw [seq_mk_events] at he
    rcases List.mem_append.mp he with he2 | he2
    · fin_cases he2
      rfl
    · revert he2
      unfold Run.seq
      cases hx : (jsonLibLoop1 env sel keys).exc with
      | some msg =>
        intro he2
        exact nb_jsonLibLoop1 env sel keys e he2
      | none =>
        intro he2
        rcases List.mem_append.mp he2 with he3 | he3
        · exact nb_jsonLibLoop1 env sel keys e he3
        · exact nb_jsonLibLoop2 env sel keys e he3

theorem nb_stepzipTryBody (env : Env) (sel : String) :
    ∀ e ∈ (stepzipTryBody env sel).events, isBusyEv e = false := by
  unfold stepzipTryBody
  cases hL : env.stepzipPart sel with
  | error msg =>
    intro e he
    fin_cases he
    rfl
  | ok u =>
    intro e he
    fin_cases he <;> rfl

theorem scan_pyBranch (env : Env) (sel : String) :
    ∀ (ys : List Effect) (d : Nat),
      busyScan ((pyBranch env sel).events ++ ys) d = busyScan ys d := by
  intro ys d
  unfold pyBranch
  by_cases hv : env.isValidPython (env.read sel) = true
  · rw [if_pos hv]
    exact scan_bracket _ (nb_pyTryBody env sel) ys d
  · rw [if_neg hv]
    show busyScan (Effect.logWarning :: Effect.eraseAll :: ys) d = busyScan ys d
    rw [scan_cons_plain Effect.logWarning _ _ rfl rfl,
        scan_cons_plain Effect.eraseAll _ _ rfl rfl]

theorem scan_stepBranch (env : Env) (sel : String) :
    ∀ (ys : List Effect) (d : Nat),
      busyScan ((stepBranch env sel).events ++ ys) d = busyScan ys d := by
  intro ys d
  unfold stepBranch
  rw [seq_mk_events, List.append_assoc, List.singleton_append,
      scan_cons_plain Effect.eraseAll _ _ rfl rfl]
  exact scan_bracket _ (nb_stepTryBody env sel) ys d

theorem scan_igesBranch (env : Env) (sel : String) :
    ∀ (ys : List Effect) (d : Nat),
      busyScan ((igesBranch env sel).events ++ ys) d = busyScan ys d := by
  intro ys d
  unfold igesBranch
  rw [seq_mk_events, List.append_assoc, List.singleton_append,
      scan_cons_plain Effect.eraseAll _ _ rfl rfl]
  exact scan_bracket _ (nb_igesTryBody env sel) ys d

theorem scan_stlBranch (env : Env) (sel : String) :
    ∀ (ys : List Effect) (d : Nat),
      busyScan ((stlBranch env sel).events ++ ys) d = busyScan ys d := by
  intro ys d
  unfold stlBranch
  rw [seq_mk_events, List.append_assoc, List.singleton_append,
      scan_cons_plain Effect.eraseAll _ _ rfl rfl]
  exact scan_bracket _ (nb_stlTryBody env sel) ys d

theorem scan_jsonBranch (env : Env) (sel : String) :
    ∀ (ys : List Effect) (d : Nat),
      busyScan ((jsonBranch env sel).events ++ ys) d = busyScan ys d := by
  intro ys d
  unfold jsonBranch
  rw [seq_mk_events, List.append_assoc, List.singleton_append,
      scan_cons_plain Effect.eraseAll _ _ rfl rfl]
  by_cases hm : containsSeq "metadata" (env.read sel) = true
  · rw [if_pos hm]
    exact scan_bracket _ (nb_jsonTryBody env sel) ys d
  · rw [if_neg hm]
    rfl

theorem scan_stepzipBranch (env : Env) (sel : String) :
    ∀ (ys : List Effect) (d : Nat),
      busyScan ((stepzipBranch env sel).events ++ ys) d = busyScan ys d := by
  intro ys d
  unfold stepzipBranch
  rw [seq_mk_events, List.append_assoc, List.singleton_append,
      scan_cons_plain Effect.eraseAll _ _ rfl rfl]
  exact scan_bracket _ (nb_stepzipTryBody env sel) ys d

theorem scan_extDispatch (env : Env) (sel ext : String) :
    ∀ (ys : List Effect) (d : Nat),
      busyScan ((extDispatch env sel ext).events ++ ys) d = busyScan ys d := by
  intro ys d
  unfold extDispatch
  split_ifs
  · exact scan_pyBranch env sel ys d
  · exact scan_stepBranch env sel ys d
  · exact scan_igesBranch env sel ys d
  · exact scan_stlBranch env sel ys d
  · exact scan_jsonBranch env sel ys d
  · exact scan_stepzipBranch env sel ys d
  · show busyScan (Effect.logError :: Effect.eraseAll :: ys) d = busyScan ys d
    rw [scan_cons_plain Effect.logError _ _ rfl rfl,
        scan_cons_plain Effect.eraseAll _ _ rfl rfl]

/-- Claim C7: in every world and for every selection, the handler's trace is
busy-balanced: every busy indicator created is destroyed before the handler
returns, whether the import succeeds or raises, and every import effect
happens behind a live busy indicator. -/
theorem C7_busy (env : Env) (sel : String) :
    busyScan (on_selected_change env sel).events 0 = true := by
  rw [on_selected_change_events]
  by_cases hd : env.isDir sel = true
  · rw [if_pos hd]
    rfl
  · rw [if_neg hd, fileDispatch_events]
    have hshape : ([Effect.logDebug, Effect.logDebug] ++
        ((Effect.logInfo :: (extDispatch env sel (lowerStr (splitext sel).2)).events) ++
          [Effect.layout, Effect.logDebug])) =
        Effect.logDebug :: Effect.logDebug :: Effect.logInfo ::
          ((extDispatch env sel (lowerStr (splitext sel).2)).events ++
            [Effect.layout, Effect.logDebug]) := by
      simp
    rw [hshape, scan_cons_plain Effect.logDebug _ _ rfl rfl,
        scan_cons_plain Effect.logDebug _ _ rfl rfl,
        scan_cons_plain Effect.logInfo _ _ rfl rfl,
        scan_extDispatch env sel _ _ 0]
    rfl
